import Mathlib

/-!
# mcwrap: shutdown escalation of a wrapped server process

A shallow embedding of `main.go`: the supervisor keeps one global escalation
stage (`currentStep`), and `shutdown` advances it and performs the action of
the stage reached.  Side effects (writes to the child's input stream, signals,
goroutine starts, sleeps, log lines) are recorded as an event trace inside an
explicit world state; results of I/O calls that the program cannot control
(the `error` returned by `pipe.Write` and `Process.Signal`) are arguments.

Library behaviour the program relies on is modelled next to it:
`github.com/spf13/viper` (lookup order env-before-defaults, the environment
being consulted only once `AutomaticEnv` was called; strings read as
integers through `strconv.ParseInt(s, 0, 0)`), `time.Duration` arithmetic
(64-bit, wrapping), `time.Sleep`, and `bufio.Reader.ReadBytes`.
-/

set_option maxRecDepth 8192

namespace Mcwrap

/-! ## Go strings, bytes and 64-bit integers -/

/-- Conversion `[]byte(s)` of a Go string: its UTF-8 bytes. -/
def bytesOf (s : String) : List UInt8 :=
  s.data.flatMap fun c => String.utf8EncodeChar c

/-- Two's complement wrap-around of a mathematical integer into `int64`. -/
def wrapInt64 (x : Int) : Int :=
  (x + 2 ^ 63) % 2 ^ 64 - 2 ^ 63

/-- Constant `time.Second`, a `time.Duration` counted in nanoseconds. -/
def Second : Int := 1000000000

/-- Expression `time.Duration(n) * time.Second` on an `int64` value `n`:
the product is taken in `int64` and wraps. -/
def secondsToDuration (n : Int) : Int :=
  wrapInt64 (wrapInt64 n * Second)

/-- Time that `time.Sleep(d)` suspends the caller: a negative or zero
duration returns immediately. -/
def sleepTime (d : Int) : Int :=
  if d ≤ 0 then 0 else d

/-! ## Configuration: the part of viper that `main.go` uses -/

/-- Values stored in viper: `main.go` stores strings and integers, and the
environment supplies strings. -/
inductive Value where
  | str (s : String)
  | int (n : Int)
  deriving DecidableEq, Repr

/-- State of the global viper instance together with the process
environment it reads. -/
structure Viper where
  /-- Set by `SetEnvPrefix`. -/
  envPre : String
  /-- Set by `SetDefault`, most recent first. -/
  defaults : List (String × Value)
  /-- Set by `AutomaticEnv`. -/
  automaticEnvApplied : Bool
  /-- Process environment (`os.LookupEnv`). -/
  environ : String → Option String

/-- A fresh viper instance over the given process environment. -/
def Viper.new (environ : String → Option String) : Viper :=
  { envPre := "", defaults := [], automaticEnvApplied := false, environ := environ }

/-- ASCII upper-casing, as `strings.ToUpper` acts on the keys used here. -/
def toUpper (s : String) : String :=
  String.mk (s.data.map Char.toUpper)

/-- ASCII lower-casing, as `strings.ToLower` acts on the keys used here. -/
def toLower (s : String) : String :=
  String.mk (s.data.map Char.toLower)

/-- Method `SetEnvPrefix`: an empty argument leaves the state unchanged. -/
def Viper.SetEnvPrefix (v : Viper) (p : String) : Viper :=
  if p ≠ "" then { v with envPre := p } else v

/-- Method `SetDefault`: keys are case-insensitive. -/
def Viper.SetDefault (v : Viper) (key : String) (val : Value) : Viper :=
  { v with defaults := (toLower key, val) :: v.defaults }

/-- Method `AutomaticEnv`. -/
def Viper.AutomaticEnv (v : Viper) : Viper :=
  { v with automaticEnvApplied := true }

/-- Name of the environment variable for a key: viper joins the prefix and
the key with an underscore and upper-cases the result. -/
def Viper.mergeWithEnvPrefix (v : Viper) (key : String) : String :=
  if v.envPre ≠ "" then toUpper (v.envPre ++ "_" ++ key) else toUpper key

/-- Environment lookup of viper: an empty value counts as unset. -/
def Viper.getEnv (v : Viper) (name : String) : Option String :=
  match v.environ name with
  | some s => if s ≠ "" then some s else none
  | none => none

/-- Method `Get`: the environment (only when `AutomaticEnv` was applied),
then the defaults.  Overrides, flags, bound variables, config files and
key/value stores are never set up by `main.go`. -/
def Viper.Get (v : Viper) (key : String) : Option Value :=
  let lcaseKey := toLower key
  let fromEnv :=
    if v.automaticEnvApplied then v.getEnv (v.mergeWithEnvPrefix lcaseKey) else none
  match fromEnv with
  | some s => some (Value.str s)
  | none => (v.defaults.lookup lcaseKey)

/-- Value of a digit or letter as `strconv` reads it. -/
def digitVal (c : Char) : Option Nat :=
  if 48 ≤ c.toNat ∧ c.toNat ≤ 57 then some (c.toNat - 48)
  else if 97 ≤ c.toLower.toNat ∧ c.toLower.toNat ≤ 122 then some (c.toLower.toNat - 97 + 10)
  else none

/-- The digit loop of `strconv.ParseUint` with base prefix recognition on:
underscores are skipped, every other character must be a digit below the
base. -/
def parseDigits (base : Nat) : List Char → Nat → Option Nat
  | [], n => some n
  | c :: cs, n =>
    if c = '_' then parseDigits base cs n
    else
      match digitVal c with
      | some d => if d < base then parseDigits base cs (n * base + d) else none
      | none => none

/-- What `underscoreOK` of `strconv` saw last. -/
inductive Saw where
  | start
  | digit
  | underscore
  | other
  deriving DecidableEq, Repr

/-- The scan of `underscoreOK`: an underscore must follow a digit (or the
base prefix) and be followed by a digit. -/
def underscoreScan (hex : Bool) : List Char → Saw → Bool
  | [], saw => saw ≠ Saw.underscore
  | c :: cs, saw =>
    if (48 ≤ c.toNat ∧ c.toNat ≤ 57) ∨
        (hex = true ∧ 97 ≤ c.toLower.toNat ∧ c.toLower.toNat ≤ 102) then
      underscoreScan hex cs Saw.digit
    else if c = '_' then
      if saw = Saw.digit then underscoreScan hex cs Saw.underscore else false
    else if saw = Saw.underscore then false
    else underscoreScan hex cs Saw.other

/-- Function `underscoreOK` of `strconv`, on a string without sign. -/
def underscoreOK (s : List Char) : Bool :=
  match s with
  | '0' :: p :: rest =>
    if p.toLower = 'b' ∨ p.toLower = 'o' ∨ p.toLower = 'x' then
      underscoreScan (p.toLower = 'x') rest Saw.digit
    else underscoreScan false s Saw.start
  | _ => underscoreScan false s Saw.start

/-- Function `strconv.ParseUint(s, 0, 64)`: the base is read off the prefix
(`0b`, `0o`, `0x`, or a leading `0` for octal, else decimal); `none` stands
for a syntax or range error. -/
def ParseUint (s : List Char) : Option Nat :=
  match s with
  | [] => none
  | _ =>
    let split : Nat × List Char :=
      match s with
      | '0' :: p :: r :: rest =>
        if p.toLower = 'b' then (2, r :: rest)
        else if p.toLower = 'o' then (8, r :: rest)
        else if p.toLower = 'x' then (16, r :: rest)
        else (8, p :: r :: rest)
      | '0' :: rest => (8, rest)
      | _ => (10, s)
    match parseDigits split.1 split.2 0 with
    | none => none
    | some n =>
      if n ≥ 2 ^ 64 then none
      else if split.2.contains '_' ∧ underscoreOK s = false then none
      else some n

/-- Function `strconv.ParseInt(s, 0, 0)` on a platform whose `int` has 64
bits: an optional sign, then `ParseUint`; `none` stands for an error. -/
def ParseInt (s : String) : Option Int :=
  match s.data with
  | [] => none
  | c :: cs =>
    let body := if c = '+' ∨ c = '-' then cs else c :: cs
    match ParseUint body with
    | none => none
    | some un =>
      if c = '-' then (if un > 2 ^ 63 then none else some (- (un : Int)))
      else (if un ≥ 2 ^ 63 then none else some (un : Int))

/-- Function `cast.ToInt64`: a string goes through `strconv.ParseInt(s, 0, 0)`,
and conversion errors yield zero. -/
def castToInt64 : Option Value → Int
  | some (Value.int n) => wrapInt64 n
  | some (Value.str s) => (ParseInt s).getD 0
  | none => 0

/-- Function `cast.ToString`. -/
def castToString : Option Value → String
  | some (Value.str s) => s
  | some (Value.int n) => toString n
  | none => ""

/-- Method `GetString`. -/
def Viper.GetString (v : Viper) (key : String) : String :=
  castToString (v.Get key)

/-- Method `GetInt64`. -/
def Viper.GetInt64 (v : Viper) (key : String) : Int :=
  castToInt64 (v.Get key)

/-- Method `GetInt`, on a platform whose `int` has 64 bits. -/
def Viper.GetInt (v : Viper) (key : String) : Int :=
  castToInt64 (v.Get key)

/-- Configuration set-up at the start of `main` (lines 73-79), in source
order: the default of `term_wait` is read from viper before `AutomaticEnv`
is called. -/
def mainConfig (environ : String → Option String) : Viper :=
  let v0 := (Viper.new environ).SetEnvPrefix "MCWRAP_"
  let v1 := v0.SetDefault "shutdown_cmd" (Value.str "stop")
  let v2 := v1.SetDefault "shutdown_wait" (Value.int 30)
  let v3 := v2.SetDefault "term_wait" (Value.int (v2.GetInt64 "shutdown_wait"))
  let v4 := v3.SetDefault "notify_cmd" (Value.str "notify_shutdown %d")
  let v5 := v4.SetDefault "notify_wait" (Value.int 30)
  v5.AutomaticEnv

/-- The empty process environment: nothing is configured. -/
def noEnv : String → Option String := fun _ => none

/-! ## Effects and the world state -/

/-- Signals the supervisor delivers to the child. -/
inductive Signal where
  | SIGTERM
  | SIGKILL
  deriving DecidableEq, Repr

/-- Observable effects of the supervisor. -/
inductive Event where
  /-- A line written with `log.Println` or `log.Printf`. -/
  | log (msg : String)
  /-- A text written with `fmt.Printf`. -/
  | print (msg : String)
  /-- A call `pipe.Write(data)` on the child's input stream. -/
  | write (data : List UInt8)
  /-- A call `cmd.Process.Signal(sig)`. -/
  | signal (sig : Signal)
  /-- A statement `go reattemptShutdown(cmd, pipe, wait)`. -/
  | goReattempt (wait : Int)
  /-- A call `time.Sleep(d)`, with `d` in nanoseconds. -/
  | sleep (d : Int)
  deriving DecidableEq, Repr

/-! Type `ShutdownStep` is a Go `int`: stages are integers, and the four
named stages are the constants `0` to `3`. -/

/-- Constant `None` of type `ShutdownStep`. -/
def None : Int := 0

/-- Constant `GracefullyStopping`: send the stop command to the server. -/
def GracefullyStopping : Int := 1

/-- Constant `Stopping`: send a SIGTERM to request a faster shutdown. -/
def Stopping : Int := 2

/-- Constant `Killing`: send a SIGKILL. -/
def Killing : Int := 3

/-- The global variable `currentStep` and the effects performed so far. -/
structure World where
  currentStep : Int
  trace : List Event
  deriving DecidableEq, Repr

/-- State at supervisor start-up: `var currentStep ShutdownStep = 0`. -/
def World.init : World :=
  { currentStep := 0, trace := [] }

/-- Append effects to the trace. -/
def World.emit (w : World) (es : List Event) : World :=
  { w with trace := w.trace ++ es }

/-- The closing `if err != nil` of `shutdown` and `shutdownWithNotification`. -/
def logIfErr (err : Option String) (w : World) : World :=
  match err with
  | some e => w.emit [Event.log ("error while requesting shutdown: " ++ e)]
  | none => w

/-! ## The escalator -/

/-- The `switch` of `shutdown` and the error report after it (lines 36-53),
on the world in which `currentStep` was already advanced.  `ioErr` is the
`error` that the stage's I/O call (`pipe.Write` or `Process.Signal`)
returns; a stage value outside the three cases performs no call. -/
def stageAction (v : Viper) (ioErr : Option String) (w1 : World) : World :=
  if w1.currentStep = GracefullyStopping then
    let w2 := w1.emit [Event.log "trying to shutdown gracefully"]
    let scmd := "\n" ++ v.GetString "shutdown_cmd" ++ "\n"
    let w3 := w2.emit [Event.write (bytesOf scmd)]
    let w4 := w3.emit [Event.goReattempt (v.GetInt64 "shutdown_wait")]
    logIfErr ioErr w4
  else if w1.currentStep = Stopping then
    let w2 := w1.emit [Event.log "trying to shutdown with SIGTERM"]
    let w3 := w2.emit [Event.signal Signal.SIGTERM]
    let w4 := w3.emit [Event.goReattempt (v.GetInt64 "term_wait")]
    logIfErr ioErr w4
  else if w1.currentStep = Killing then
    let w2 := w1.emit [Event.log "trying to kill"]
    let w3 := w2.emit [Event.signal Signal.SIGKILL]
    logIfErr ioErr w3
  else
    w1

/-- Function `shutdown` (lines 28-54), run without interference from other
goroutines.  The increment cannot overflow: it is only reached below
`Killing`. -/
def shutdown (v : Viper) (ioErr : Option String) (w : World) : World :=
  if w.currentStep ≥ Killing then w
  else stageAction v ioErr { w with currentStep := w.currentStep + 1 }

/-- Function `reattemptShutdown` (lines 66-70): the body of the goroutine
started by `shutdown`. -/
def reattemptShutdown (v : Viper) (ioErr : Option String) (wait : Int) (w : World) : World :=
  let w1 := w.emit [Event.sleep (secondsToDuration wait)]
  shutdown v ioErr w1

/-- Function `shutdownWithNotification` (lines 56-64).  `sprintf` stands for
`fmt.Sprintf` applied to a format and one `int`; `writeErr` is the error
returned by the notification write, `ioErr` the one of the stage action. -/
def shutdownWithNotification (sprintf : String → Int → String) (v : Viper)
    (writeErr ioErr : Option String) (w : World) : World :=
  let msg := sprintf (v.GetString "notify_cmd") (v.GetInt "notify_wait")
  let w1 := w.emit [Event.write (bytesOf ("\n" ++ msg ++ "\n"))]
  let w2 := logIfErr writeErr w1
  let w3 := w2.emit [Event.sleep (secondsToDuration (v.GetInt64 "notify_wait"))]
  shutdown v ioErr w3

/-- A fragment of `fmt.Sprintf` with one `int` operand: literal text, the
escape `%%`, and the verbs `%d` and `%v` (decimal), the first of which
consumes the operand; a further one finds no operand, and an operand left
unused is reported at the end.  Every other use of `%` lies outside the
fragment: the result is `none`. -/
def expandD : List Char → Int → Bool → Option (List Char)
  | '%' :: 'd' :: rest, a, false => (expandD rest a true).map fun r => (toString a).data ++ r
  | '%' :: 'v' :: rest, a, false => (expandD rest a true).map fun r => (toString a).data ++ r
  | '%' :: 'd' :: rest, a, true => (expandD rest a true).map fun r => "%!d(MISSING)".data ++ r
  | '%' :: 'v' :: rest, a, true => (expandD rest a true).map fun r => "%!v(MISSING)".data ++ r
  | '%' :: '%' :: rest, a, used => (expandD rest a used).map fun r => '%' :: r
  | '%' :: _, _, _ => none
  | c :: rest, a, used => (expandD rest a used).map fun r => c :: r
  | [], a, false => some ("%!(EXTRA int=".data ++ (toString a).data ++ ")".data)
  | [], _, true => some []

/-- The fragment of `fmt.Sprintf` of `expandD`, on strings. -/
def sprintfD (format : String) (a : Int) : Option String :=
  (expandD format.data a false).map String.mk

/-! ## Observations on traces -/

/-- Effects performed between two worlds of one run. -/
def World.since (w w' : World) : List Event :=
  w'.trace.drop w.trace.length

/-- Stage actions: writes to the child's input stream and signals. -/
def Event.isAction : Event → Bool
  | Event.write _ => true
  | Event.signal _ => true
  | _ => false

/-- Waits of the re-attempt goroutines started in a list of effects. -/
def started : List Event → List Int
  | [] => []
  | Event.goReattempt wait :: es => wait :: started es
  | _ :: es => started es

/-- Report of a failed I/O call, if any. -/
def errLog (err : Option String) : List Event :=
  match err with
  | some e => [Event.log ("error while requesting shutdown: " ++ e)]
  | none => []

/-! ## Sequences of calls -/

/-- Stage observed after each of a sequence of calls to `shutdown`, run one
after the other; the list gives the I/O result of each call. -/
def stagesObserved (v : Viper) : List (Option String) → World → List Int
  | [], _ => []
  | e :: es, w => (shutdown v e w).currentStep :: stagesObserved v es (shutdown v e w)

/-- Number of times a sequence of observed stages enters stage `s`: the
stage becomes `s` coming from a different one. -/
def entries (s : Int) : List Int → Nat
  | a :: b :: rest => (if a ≠ s ∧ b = s then 1 else 0) + entries s (b :: rest)
  | _ => 0

/-! ## One escalation in time

The supervisor's goroutines are run one at a time, each as a whole, in the
order in which they were started.  The time of every effect of a goroutine
is the time at which the goroutine was started plus the time it has spent
in `time.Sleep` before the effect, as recorded by the goroutine's own
`Event.sleep` effects.  This is exact for one escalation: `shutdown` starts
its re-attempt after its last access to `currentStep`, so the goroutines of
an escalation never overlap in time. -/

/-- A goroutine `reattemptShutdown(cmd, pipe, wait)` started at time `start`
(nanoseconds) that has not run yet. -/
structure Timer where
  start : Int
  wait : Int
  deriving DecidableEq, Repr

/-- The supervisor at a point in time: the world, the re-attempts started
and not yet run, the stage actions with the time at which each was
performed, and the number of goroutines run so far. -/
structure Sim where
  now : Int
  world : World
  timers : List Timer
  actions : List (Int × Event)
  calls : Nat
  deriving DecidableEq, Repr

/-- Supervisor start-up, at time zero. -/
def Sim.init : Sim :=
  { now := 0, world := World.init, timers := [], actions := [], calls := 0 }

/-- Time of each effect of a goroutine that starts running at `clock`: every
`time.Sleep(d)` it performs delays what follows it by `sleepTime d`. -/
def stamp (clock : Int) : List Event → List (Int × Event)
  | [] => []
  | Event.sleep d :: es => (clock, Event.sleep d) :: stamp (clock + sleepTime d) es
  | e :: es => (clock, e) :: stamp clock es

/-- Total time a goroutine with these effects spends in `time.Sleep`. -/
def elapsed : List Event → Int
  | [] => 0
  | Event.sleep d :: es => sleepTime d + elapsed es
  | _ :: es => elapsed es

/-- Re-attempt goroutines started in a list of timed effects, each with the
time of the `go` statement. -/
def startedAt : List (Int × Event) → List Timer
  | [] => []
  | (t, Event.goReattempt wait) :: es => { start := t, wait := wait } :: startedAt es
  | _ :: es => startedAt es

/-- Run one goroutine body `run`, starting at the current time.  The I/O
result of its stage action is drawn from `errs`. -/
def Sim.call (errs : Nat → Option String) (run : Option String → World → World) (s : Sim) : Sim :=
  let w := run (errs s.calls) s.world
  let new := stamp s.now (s.world.since w)
  { now := s.now + elapsed (s.world.since w)
    world := w
    timers := s.timers ++ startedAt new
    actions := s.actions ++ new.filter fun p => p.2.isAction
    calls := s.calls + 1 }

/-- Remove the goroutine that was started first (the first listed among
equals). -/
def popEarliest : List Timer → Option (Timer × List Timer)
  | [] => none
  | t :: ts =>
    match popEarliest ts with
    | none => some (t, [])
    | some (u, rest) => if t.start ≤ u.start then some (t, ts) else some (u, t :: rest)

/-- An interrupt signal at the current time: `go shutdown(cmd, pipe)`. -/
def interrupt (v : Viper) (errs : Nat → Option String) (s : Sim) : Sim :=
  s.call errs (shutdown v)

/-- Run the re-attempts that were started, each from its start time, until
none is left; `none` when the fuel runs out first. -/
def runTimers (v : Viper) (errs : Nat → Option String) : Nat → Sim → Option Sim
  | 0, _ => none
  | fuel + 1, s =>
    match popEarliest s.timers with
    | none => some s
    | some (t, rest) =>
      runTimers v errs fuel
        (Sim.call errs (fun e w => reattemptShutdown v e t.wait w)
          { s with now := t.start, timers := rest })

/-! ## Overlapping calls -/

/-- Position of one caller inside `shutdown`. -/
inductive PC where
  /-- Before the test of line 29. -/
  | atGuard
  /-- Before the read of `currentStep` in `currentStep += 1` (line 34). -/
  | atLoad
  /-- Before the write of line 34, holding the value to store. -/
  | atStore (x : Int)
  /-- Before the `switch currentStep` of line 37. -/
  | atSwitch
  /-- Returned. -/
  | done
  deriving DecidableEq, Repr

/-- Several goroutines inside `shutdown` at once: the shared variable, each
caller's position, and the effects with the caller that performed them. -/
structure Conc where
  currentStep : Int
  pcs : Nat → PC
  trace : List (Nat × Event)

/-- All callers about to enter `shutdown`, at supervisor start-up. -/
def Conc.init : Conc :=
  { currentStep := 0, pcs := fun _ => PC.atGuard, trace := [] }

/-- Move caller `t` to position `pc`. -/
def Conc.setPC (c : Conc) (t : Nat) (pc : PC) : Conc :=
  { c with pcs := fun u => if u = t then pc else c.pcs u }

/-- One step of caller `t`.  `currentStep` is a plain variable: the test,
the two halves of the increment and the `switch` each access it on their
own. -/
def stepCaller (v : Viper) (errs : Nat → Option String) (t : Nat) (c : Conc) : Conc :=
  match c.pcs t with
  | PC.atGuard =>
    if c.currentStep ≥ Killing then c.setPC t PC.done else c.setPC t PC.atLoad
  | PC.atLoad => c.setPC t (PC.atStore (c.currentStep + 1))
  | PC.atStore x => { c with currentStep := x }.setPC t PC.atSwitch
  | PC.atSwitch =>
    let w := stageAction v (errs t) { currentStep := c.currentStep, trace := [] }
    { c with trace := c.trace ++ w.trace.map fun e => (t, e) }.setPC t PC.done
  | PC.done => c

/-- Run the callers in the order given by a schedule. -/
def runSchedule (v : Viper) (errs : Nat → Option String) : List Nat → Conc → Conc
  | [], c => c
  | t :: ts, c => runSchedule v errs ts (stepCaller v errs t c)

/-- Stage that an effect acts for: the stop command belongs to
`GracefullyStopping`, SIGTERM to `Stopping`, SIGKILL to `Killing`. -/
def stageOf : Event → Option Int
  | Event.write _ => some GracefullyStopping
  | Event.signal Signal.SIGTERM => some Stopping
  | Event.signal Signal.SIGKILL => some Killing
  | _ => none

/-- Callers that acted, each with the stage it acted for, in order. -/
def claims : List (Nat × Event) → List (Nat × Int)
  | [] => []
  | (t, e) :: rest =>
    match stageOf e with
    | some s => (t, s) :: claims rest
    | none => claims rest

/-- Schedule in which callers `0, ..., n-1` run one after the other, each
to completion (four steps). -/
def seqSchedule : Nat → List Nat
  | 0 => []
  | n + 1 => seqSchedule n ++ [n, n, n, n]

/-! ## The input relay -/

/-- Errors of `ReadBytes`. -/
inductive ReadErr where
  | EOF
  | other (msg : String)
  deriving DecidableEq, Repr

/-- A `bufio.Reader` on the supervisor's standard input: the bytes still to
come, and how the input ends (`none`: end of input). -/
structure Reader where
  pending : List UInt8
  failure : Option String
  deriving DecidableEq, Repr

/-- Split after the first occurrence of `delim`, if there is one. -/
def splitDelim (delim : UInt8) : List UInt8 → Option (List UInt8 × List UInt8)
  | [] => none
  | b :: bs =>
    if b = delim then some ([b], bs)
    else
      match splitDelim delim bs with
      | some (line, rest) => some (b :: line, rest)
      | none => none

/-- Method `ReadBytes`: the bytes up to and including the first `delim`; when
the input ends before a delimiter, the bytes read so far together with the
error. -/
def Reader.ReadBytes (rd : Reader) (delim : UInt8) : List UInt8 × Option ReadErr × Reader :=
  match splitDelim delim rd.pending with
  | some (line, rest) => (line, none, { rd with pending := rest })
  | none =>
    let err := match rd.failure with
      | none => ReadErr.EOF
      | some e => ReadErr.other e
    (rd.pending, some err, { rd with pending := [] })

/-- The relay goroutine of `main` (lines 90-105).  `writeErr i` is the error
returned by the write of iteration `i`; `none` when the fuel runs out before
the loop ends. -/
def relay (writeErr : Nat → Option String) : Nat → Reader → Nat → List Event → Option (List Event)
  | 0, _, _, _ => none
  | fuel + 1, rd, i, tr =>
    match rd.ReadBytes 10 with
    | (_, some ReadErr.EOF, _) => some tr
    | (_, some (ReadErr.other e), _) =>
      some (tr ++ [Event.print ("Error while reading from input: " ++ e)])
    | (data, none, rd1) =>
      let tr1 := tr ++ [Event.write data]
      let tr2 := match writeErr i with
        | some e => tr1 ++ [Event.print ("Error while writing to wrapped process: " ++ e)]
        | none => tr1
      relay writeErr fuel rd1 (i + 1) tr2

/-- All bytes written to the child's input stream, in order. -/
def written : List Event → List UInt8
  | [] => []
  | Event.write data :: es => data ++ written es
  | _ :: es => written es

/-! ## Configurations used as examples -/

/-- No I/O call fails. -/
def noErr : Nat → Option String := fun _ => none

/-- Environment setting a single variable. -/
def envWith (name value : String) : String → Option String :=
  fun k => if k = name then some value else none

/-! ## Basic facts about `shutdown` -/

theorem stageAction_eq (v : Viper) (e : Option String) (w1 : World) :
    stageAction v e w1 =
      { currentStep := w1.currentStep
        trace := w1.trace ++
          (if w1.currentStep = 1 then
            [Event.log "trying to shutdown gracefully",
             Event.write (bytesOf ("\n" ++ v.GetString "shutdown_cmd" ++ "\n")),
             Event.goReattempt (v.GetInt64 "shutdown_wait")] ++ errLog e
          else if w1.currentStep = 2 then
            [Event.log "trying to shutdown with SIGTERM", Event.signal Signal.SIGTERM,
             Event.goReattempt (v.GetInt64 "term_wait")] ++ errLog e
          else if w1.currentStep = 3 then
            [Event.log "trying to kill", Event.signal Signal.SIGKILL] ++ errLog e
          else []) } := by
  unfold stageAction
  simp only [GracefullyStopping, Stopping, Killing]
  split_ifs <;> cases e <;> simp [World.emit, logIfErr, errLog]

theorem shutdown_eq (v : Viper) (e : Option String) (w : World) :
    shutdown v e w =
      if w.currentStep ≥ 3 then w
      else
        { currentStep := w.currentStep + 1
          trace := w.trace ++
            (if w.currentStep = 0 then
              [Event.log "trying to shutdown gracefully",
               Event.write (bytesOf ("\n" ++ v.GetString "shutdown_cmd" ++ "\n")),
               Event.goReattempt (v.GetInt64 "shutdown_wait")] ++ errLog e
            else if w.currentStep = 1 then
              [Event.log "trying to shutdown with SIGTERM", Event.signal Signal.SIGTERM,
               Event.goReattempt (v.GetInt64 "term_wait")] ++ errLog e
            else if w.currentStep = 2 then
              [Event.log "trying to kill", Event.signal Signal.SIGKILL] ++ errLog e
            else []) } := by
  unfold shutdown
  simp only [Killing]
  by_cases h : w.currentStep ≥ 3
  · rw [if_pos h, if_pos h]
  · rw [if_neg h, if_neg h, stageAction_eq]
    have h0 : (w.currentStep + 1 = 1) ↔ (w.currentStep = 0) := by
      constructor <;> intro h' <;> omega
    have h1 : (w.currentStep + 1 = 2) ↔ (w.currentStep = 1) := by
      constructor <;> intro h' <;> omega
    have h2 : (w.currentStep + 1 = 3) ↔ (w.currentStep = 2) := by
      constructor <;> intro h' <;> omega
    simp only [h0, h1, h2]

theorem shutdown_currentStep (v : Viper) (e : Option String) (w : World) :
    (shutdown v e w).currentStep =
      if w.currentStep ≥ 3 then w.currentStep else w.currentStep + 1 := by
  rw [shutdown_eq]
  split_ifs <;> rfl

theorem since_append (w : World) (c : Int) (es : List Event) :
    w.since { currentStep := c, trace := w.trace ++ es } = es := by
  simp [World.since]

theorem since_shutdown (v : Viper) (e : Option String) (w : World) :
    w.since (shutdown v e w) =
      if w.currentStep = 0 then
        [Event.log "trying to shutdown gracefully",
         Event.write (bytesOf ("\n" ++ v.GetString "shutdown_cmd" ++ "\n")),
         Event.goReattempt (v.GetInt64 "shutdown_wait")] ++ errLog e
      else if w.currentStep = 1 then
        [Event.log "trying to shutdown with SIGTERM", Event.signal Signal.SIGTERM,
         Event.goReattempt (v.GetInt64 "term_wait")] ++ errLog e
      else if w.currentStep = 2 then
        [Event.log "trying to kill", Event.signal Signal.SIGKILL] ++ errLog e
      else [] := by
  rw [shutdown_eq]
  by_cases h : w.currentStep ≥ 3
  · have h0 : ¬ w.currentStep = 0 := by omega
    have h1 : ¬ w.currentStep = 1 := by omega
    have h2 : ¬ w.currentStep = 2 := by omega
    simp [h, h0, h1, h2, World.since]
  · rw [if_neg h, since_append]

theorem started_errLog (e : Option String) : started (errLog e) = [] := by
  cases e <;> rfl

theorem filter_isAction_errLog (e : Option String) :
    (errLog e).filter Event.isAction = [] := by
  cases e <;> rfl

theorem started_since_shutdown (v : Viper) (e : Option String) (w : World) :
    started (w.since (shutdown v e w)) =
      if w.currentStep = 0 then [v.GetInt64 "shutdown_wait"]
      else if w.currentStep = 1 then [v.GetInt64 "term_wait"]
      else [] := by
  rw [since_shutdown]
  split_ifs <;> simp [started, started_errLog]

theorem actions_since_shutdown (v : Viper) (e : Option String) (w : World) :
    (w.since (shutdown v e w)).filter Event.isAction =
      if w.currentStep = 0 then
        [Event.write (bytesOf ("\n" ++ v.GetString "shutdown_cmd" ++ "\n"))]
      else if w.currentStep = 1 then [Event.signal Signal.SIGTERM]
      else if w.currentStep = 2 then [Event.signal Signal.SIGKILL]
      else [] := by
  rw [since_shutdown]
  split_ifs <;> simp [Event.isAction, filter_isAction_errLog]

/-! ## Stages along a sequence of calls -/

theorem stagesObserved_chain (v : Viper) (errs : List (Option String)) (w : World) :
    List.Chain (· ≤ ·) w.currentStep (stagesObserved v errs w) := by
  induction errs generalizing w with
  | nil => exact List.Chain.nil
  | cons e es ih =>
    refine List.Chain.cons ?_ (ih (shutdown v e w))
    rw [shutdown_currentStep]
    split_ifs <;> omega

theorem stagesObserved_le (v : Viper) (errs : List (Option String)) (w : World)
    (hw : w.currentStep ≤ 3) : ∀ s ∈ stagesObserved v errs w, s ≤ 3 := by
  induction errs generalizing w with
  | nil => intro s hs; simp [stagesObserved] at hs
  | cons e es ih =>
    have hstep : (shutdown v e w).currentStep ≤ 3 := by
      rw [shutdown_currentStep]
      split_ifs <;> omega
    intro s hs
    simp only [stagesObserved, List.mem_cons] at hs
    rcases hs with rfl | hs
    · exact hstep
    · exact ih (shutdown v e w) hstep s hs

theorem entries_stagesObserved (v : Viper) (s : Int) (errs : List (Option String))
    (w : World) :
    entries s (w.currentStep :: stagesObserved v errs w) ≤ 1 ∧
      (s ≤ w.currentStep → entries s (w.currentStep :: stagesObserved v errs w) = 0) := by
  induction errs generalizing w with
  | nil => simp [stagesObserved, entries]
  | cons e es ih =>
    obtain ⟨ih1, ih2⟩ := ih (shutdown v e w)
    have hmono : w.currentStep ≤ (shutdown v e w).currentStep := by
      rw [shutdown_currentStep]
      split_ifs <;> omega
    simp only [stagesObserved, entries]
    constructor
    · by_cases hb : (shutdown v e w).currentStep = s
      · have := ih2 (le_of_eq hb.symm)
        rw [this]
        split_ifs <;> omega
      · rw [if_neg (fun h => hb h.2)]
        omega
    · intro hs
      have := ih2 (le_trans hs hmono)
      rw [this, if_neg]
      rintro ⟨ha, hb⟩
      exact ha (le_antisymm (hb ▸ hmono) hs)

/-- C1: along every sequence of sequential calls to shutdown starting from
stage None, the observed stage never decreases, never exceeds Killing, and
each of GracefullyStopping, Stopping and Killing is entered at most once. -/
theorem stages_monotone_bounded_entered_once (v : Viper) (errs : List (Option String)) :
    List.Chain' (· ≤ ·) (None :: stagesObserved v errs World.init) ∧
      (∀ s ∈ None :: stagesObserved v errs World.init, s ≤ Killing) ∧
      entries GracefullyStopping (None :: stagesObserved v errs World.init) ≤ 1 ∧
      entries Stopping (None :: stagesObserved v errs World.init) ≤ 1 ∧
      entries Killing (None :: stagesObserved v errs World.init) ≤ 1 := by
  refine ⟨?_, ?_, ?_, ?_, ?_⟩
  · exact stagesObserved_chain v errs World.init
  · intro s hs
    simp only [List.mem_cons] at hs
    rcases hs with rfl | hs
    · simp [None, Killing]
    · exact stagesObserved_le v errs World.init (by simp [World.init]) s hs
  · exact (entries_stagesObserved v GracefullyStopping errs World.init).1
  · exact (entries_stagesObserved v Stopping errs World.init).1
  · exact (entries_stagesObserved v Killing errs World.init).1

/-- C2: at stage Killing a call to shutdown changes nothing: the world is
returned as it was, so no effect of any kind (write, signal, goroutine start,
log line) is performed and the stage stays Killing. -/
theorem shutdown_at_killing_noop (v : Viper) (e : Option String) (w : World)
    (h : w.currentStep = Killing) :
    shutdown v e w = w ∧ w.since (shutdown v e w) = [] ∧
      (shutdown v e w).currentStep = Killing := by
  have hw : shutdown v e w = w := by
    unfold shutdown
    rw [if_pos (by rw [h])]
  rw [hw]
  exact ⟨rfl, by simp [World.since], h⟩

theorem shutdown_at_killing_noop_witness :
    shutdown (mainConfig noEnv) (some "os: process already finished")
        { currentStep := Killing, trace := [Event.signal Signal.SIGKILL] } =
        { currentStep := Killing, trace := [Event.signal Signal.SIGKILL] } ∧
      World.since { currentStep := Killing, trace := [Event.signal Signal.SIGKILL] }
        (shutdown (mainConfig noEnv) (some "os: process already finished")
          { currentStep := Killing, trace := [Event.signal Signal.SIGKILL] }) = [] ∧
      (shutdown (mainConfig noEnv) (some "os: process already finished")
        { currentStep := Killing, trace := [Event.signal Signal.SIGKILL] }).currentStep = Killing :=
  shutdown_at_killing_noop (mainConfig noEnv) (some "os: process already finished")
    { currentStep := Killing, trace := [Event.signal Signal.SIGKILL] } rfl

/-- C3: from a stage below Killing (None, GracefullyStopping or Stopping) one
uninterrupted call to shutdown sets the stage to exactly the next one and
performs exactly one action, that of the stage reached: the write of newline,
shutdown_cmd, newline for GracefullyStopping (the bytes of "\nstop\n" under
the defaults), SIGTERM for Stopping, SIGKILL for Killing. -/
theorem shutdown_advances_one_action (v : Viper) (e : Option String) (w : World)
    (hlo : None ≤ w.currentStep) (hhi : w.currentStep < Killing) :
    (shutdown v e w).currentStep = w.currentStep + 1 ∧
      (shutdown v e w).trace = w.trace ++ w.since (shutdown v e w) ∧
      (w.since (shutdown v e w)).filter Event.isAction =
        [if w.currentStep + 1 = GracefullyStopping then
            Event.write (bytesOf ("\n" ++ v.GetString "shutdown_cmd" ++ "\n"))
          else if w.currentStep + 1 = Stopping then Event.signal Signal.SIGTERM
          else Event.signal Signal.SIGKILL] ∧
      bytesOf ("\n" ++ (mainConfig noEnv).GetString "shutdown_cmd" ++ "\n") =
        [10, 115, 116, 111, 112, 10] := by
  simp only [None, GracefullyStopping, Stopping, Killing] at *
  refine ⟨?_, ?_, ?_, by decide⟩
  · rw [shutdown_currentStep, if_neg (by omega)]
  · rw [since_shutdown, shutdown_eq, if_neg (by omega)]
  · rw [actions_since_shutdown]
    have h3 : w.currentStep = 0 ∨ w.currentStep = 1 ∨ w.currentStep = 2 := by omega
    rcases h3 with h | h | h <;> simp [h]

theorem shutdown_advances_one_action_witness :
    (shutdown (mainConfig noEnv) none World.init).currentStep = World.init.currentStep + 1 ∧
      (shutdown (mainConfig noEnv) none World.init).trace =
        World.init.trace ++ World.init.since (shutdown (mainConfig noEnv) none World.init) ∧
      (World.init.since (shutdown (mainConfig noEnv) none World.init)).filter Event.isAction =
        [if World.init.currentStep + 1 = GracefullyStopping then
            Event.write (bytesOf ("\n" ++ (mainConfig noEnv).GetString "shutdown_cmd" ++ "\n"))
          else if World.init.currentStep + 1 = Stopping then Event.signal Signal.SIGTERM
          else Event.signal Signal.SIGKILL] ∧
      bytesOf ("\n" ++ (mainConfig noEnv).GetString "shutdown_cmd" ++ "\n") =
        [10, 115, 116, 111, 112, 10] :=
  shutdown_advances_one_action (mainConfig noEnv) none World.init (by decide) (by decide)

/-! ## Durations and the re-attempt goroutine -/

theorem secondsToDuration_of_range (n : Int) (h0 : 0 ≤ n) (h1 : n ≤ 9223372036) :
    secondsToDuration n = n * Second ∧ sleepTime (secondsToDuration n) = n * Second := by
  have h : secondsToDuration n = n * Second := by
    unfold secondsToDuration wrapInt64 Second
    omega
  refine ⟨h, ?_⟩
  rw [h]
  unfold sleepTime Second
  split_ifs <;> omega

theorem reattemptShutdown_currentStep (v : Viper) (e : Option String) (wait : Int) (w : World) :
    (reattemptShutdown v e wait w).currentStep =
      if w.currentStep ≥ 3 then w.currentStep else w.currentStep + 1 := by
  unfold reattemptShutdown
  simp only [shutdown_currentStep, World.emit]

theorem since_shutdown_after (v : Viper) (e : Option String) (w : World) (es : List Event) :
    w.since (shutdown v e (w.emit es)) = es ++ w.since (shutdown v e w) := by
  rw [shutdown_eq, shutdown_eq]
  by_cases h : w.currentStep ≥ 3
  · simp [h, World.emit, World.since]
  · simp [h, World.emit, World.since]

theorem since_reattemptShutdown (v : Viper) (e : Option String) (wait : Int) (w : World) :
    w.since (reattemptShutdown v e wait w) =
      Event.sleep (secondsToDuration wait) :: w.since (shutdown v e w) := by
  unfold reattemptShutdown
  rw [since_shutdown_after]
  rfl

theorem stamp_since_shutdown (v : Viper) (e : Option String) (w : World) (t : Int) :
    stamp t (w.since (shutdown v e w)) = (w.since (shutdown v e w)).map fun x => (t, x) := by
  rw [since_shutdown]
  split_ifs <;> cases e <;> simp [stamp, errLog]

theorem elapsed_since_shutdown (v : Viper) (e : Option String) (w : World) :
    elapsed (w.since (shutdown v e w)) = 0 := by
  rw [since_shutdown]
  split_ifs <;> cases e <;> simp [elapsed, errLog]

theorem startedAt_map (t : Int) (es : List Event) :
    startedAt (es.map fun x => (t, x)) =
      (started es).map fun wait => ({ start := t, wait := wait } : Timer) := by
  induction es with
  | nil => rfl
  | cons e es ih => cases e <;> simp [startedAt, started, ih]

theorem filter_isAction_map (t : Int) (es : List Event) :
    (es.map fun x => (t, x)).filter (fun p => p.2.isAction) =
      (es.filter Event.isAction).map fun x => (t, x) := by
  rw [List.filter_map]
  rfl

theorem call_shutdown (v : Viper) (errs : Nat → Option String) (s : Sim) :
    Sim.call errs (shutdown v) s =
      { now := s.now
        world := shutdown v (errs s.calls) s.world
        timers := s.timers ++
          (started (s.world.since (shutdown v (errs s.calls) s.world))).map
            fun wait => ({ start := s.now, wait := wait } : Timer)
        actions := s.actions ++
          ((s.world.since (shutdown v (errs s.calls) s.world)).filter Event.isAction).map
            fun x => (s.now, x)
        calls := s.calls + 1 } := by
  simp only [Sim.call, stamp_since_shutdown, elapsed_since_shutdown, startedAt_map,
    filter_isAction_map, add_zero]

theorem call_reattemptShutdown (v : Viper) (errs : Nat → Option String) (wait : Int)
    (s : Sim) :
    Sim.call errs (fun e w => reattemptShutdown v e wait w) s =
      { now := s.now + sleepTime (secondsToDuration wait)
        world := reattemptShutdown v (errs s.calls) wait s.world
        timers := s.timers ++
          (started (s.world.since (shutdown v (errs s.calls) s.world))).map
            fun x => ({ start := s.now + sleepTime (secondsToDuration wait), wait := x } : Timer)
        actions := s.actions ++
          ((s.world.since (shutdown v (errs s.calls) s.world)).filter Event.isAction).map
            fun x => (s.now + sleepTime (secondsToDuration wait), x)
        calls := s.calls + 1 } := by
  have hf : ∀ (t : Int) (d : Int) (l : List (Int × Event)),
      ((t, Event.sleep d) :: l).filter (fun p => p.2.isAction) =
        l.filter (fun p => p.2.isAction) := fun _ _ _ => rfl
  simp only [Sim.call, since_reattemptShutdown, stamp, elapsed, stamp_since_shutdown,
    elapsed_since_shutdown, startedAt, startedAt_map, hf, filter_isAction_map, add_zero]

theorem runTimers_fuel_succ (v : Viper) (errs : Nat → Option String) (n : Nat) (s r : Sim)
    (h : runTimers v errs n s = some r) : runTimers v errs (n + 1) s = some r := by
  induction n generalizing s with
  | zero => simp [runTimers] at h
  | succ n ih =>
    rw [runTimers] at h ⊢
    cases hp : popEarliest s.timers with
    | none => rw [hp] at h; exact h
    | some p =>
      rw [hp] at h
      exact ih _ h

theorem runTimers_fuel_add (v : Viper) (errs : Nat → Option String) (n k : Nat) (s r : Sim)
    (h : runTimers v errs n s = some r) : runTimers v errs (n + k) s = some r := by
  induction k with
  | zero => exact h
  | succ k ih => exact runTimers_fuel_succ v errs (n + k) s r ih

/-- C4, amended: a call to shutdown that enters GracefullyStopping starts
exactly one re-attempt goroutine, carrying shutdown_wait; one that enters
Stopping exactly one, carrying term_wait; any other call none.  The effects
of the goroutine are one sleep followed by those of exactly one call to
shutdown, performed when the sleep has ended; and for a wait between 0 and
9223372036 seconds the sleep lasts exactly that many seconds. -/
theorem shutdown_schedules_reattempt (v : Viper) (errs : Nat → Option String) (s : Sim)
    (wait : Int) :
    started (s.world.since (shutdown v (errs s.calls) s.world)) =
        (if s.world.currentStep = None then [v.GetInt64 "shutdown_wait"]
         else if s.world.currentStep = GracefullyStopping then [v.GetInt64 "term_wait"]
         else []) ∧
      (interrupt v errs s).timers = s.timers ++
        (if s.world.currentStep = None then
          [{ start := s.now, wait := v.GetInt64 "shutdown_wait" }]
         else if s.world.currentStep = GracefullyStopping then
          [{ start := s.now, wait := v.GetInt64 "term_wait" }]
         else []) ∧
      s.world.since (reattemptShutdown v (errs s.calls) wait s.world) =
        Event.sleep (secondsToDuration wait) ::
          s.world.since (shutdown v (errs s.calls) s.world) ∧
      (reattemptShutdown v (errs s.calls) wait s.world).currentStep =
        (shutdown v (errs s.calls) s.world).currentStep ∧
      (Sim.call errs (fun e w => reattemptShutdown v e wait w) s).actions =
        s.actions ++
          ((s.world.since (shutdown v (errs s.calls) s.world)).filter Event.isAction).map
            (fun x => (s.now + sleepTime (secondsToDuration wait), x)) ∧
      (0 ≤ wait → wait ≤ 9223372036 →
        secondsToDuration wait = wait * Second ∧
          sleepTime (secondsToDuration wait) = wait * Second) := by
  refine ⟨?_, ?_, ?_, ?_, ?_, ?_⟩
  · rw [started_since_shutdown]
    rfl
  · rw [interrupt, call_shutdown]
    simp only [started_since_shutdown, None, GracefullyStopping]
    split_ifs <;> rfl
  · exact since_reattemptShutdown v (errs s.calls) wait s.world
  · rw [reattemptShutdown_currentStep, shutdown_currentStep]
  · rw [call_reattemptShutdown]
  · exact fun h0 h1 => secondsToDuration_of_range wait h0 h1

theorem shutdown_schedules_reattempt_witness :
    secondsToDuration ((mainConfig noEnv).GetInt64 "shutdown_wait") =
        (mainConfig noEnv).GetInt64 "shutdown_wait" * Second ∧
      sleepTime (secondsToDuration ((mainConfig noEnv).GetInt64 "shutdown_wait")) =
        (mainConfig noEnv).GetInt64 "shutdown_wait" * Second :=
  (shutdown_schedules_reattempt (mainConfig noEnv) noErr Sim.init
    ((mainConfig noEnv).GetInt64 "shutdown_wait")).2.2.2.2.2 (by decide) (by decide)

/-- C4 fails as stated: with shutdown_wait configured as 9223372037 the
duration overflows 64 bits and is negative, so the sleep of the re-attempt
returns at once: SIGTERM is sent at time 0, not 9223372037 seconds after the
stop command. -/
theorem reattempt_wait_overflows :
    (mainConfig (envWith "MCWRAP__SHUTDOWN_WAIT" "9223372037")).GetInt64 "shutdown_wait" =
        9223372037 ∧
      started (World.init.since
        (shutdown (mainConfig (envWith "MCWRAP__SHUTDOWN_WAIT" "9223372037")) none
          World.init)) = [9223372037] ∧
      (reattemptShutdown (mainConfig (envWith "MCWRAP__SHUTDOWN_WAIT" "9223372037")) none
        9223372037 { currentStep := GracefullyStopping, trace := [] }).trace =
        [Event.sleep (-9223372036709551616),
         Event.log "trying to shutdown with SIGTERM", Event.signal Signal.SIGTERM,
         Event.goReattempt 30] ∧
      sleepTime (-9223372036709551616) = 0 ∧
      (runTimers (mainConfig (envWith "MCWRAP__SHUTDOWN_WAIT" "9223372037")) noErr 3
        (interrupt (mainConfig (envWith "MCWRAP__SHUTDOWN_WAIT" "9223372037")) noErr
          Sim.init)).map (fun s => s.actions) =
        some [(0, Event.write [10, 115, 116, 111, 112, 10]),
          (0, Event.signal Signal.SIGTERM),
          (30000000000, Event.signal Signal.SIGKILL)] := by
  decide

/-- C5: under the defaults, with the child never exiting and no I/O call
failing, one interrupt at time 0 from stage None, with every re-attempt
acting when its own sleep has ended, performs exactly the write of the bytes
of "\nstop\n" at 0 s, SIGTERM at 30 s and SIGKILL at 60 s, in this order;
then the stage is Killing and no re-attempt is left, whatever the fuel
beyond three rounds. -/
theorem single_interrupt_default_trace (k : Nat) :
    (runTimers (mainConfig noEnv) noErr (3 + k)
      (interrupt (mainConfig noEnv) noErr Sim.init)).map
        (fun s => (s.actions, s.timers, s.world.currentStep, s.calls, s.now)) =
      some ([(0, Event.write [10, 115, 116, 111, 112, 10]),
          (30000000000, Event.signal Signal.SIGTERM),
          (60000000000, Event.signal Signal.SIGKILL)], [], Killing, 3, 60000000000) := by
  have h3 : ∃ r, runTimers (mainConfig noEnv) noErr 3
      (interrupt (mainConfig noEnv) noErr Sim.init) = some r ∧
      (r.actions, r.timers, r.world.currentStep, r.calls, r.now) =
        ([(0, Event.write [10, 115, 116, 111, 112, 10]),
          (30000000000, Event.signal Signal.SIGTERM),
          (60000000000, Event.signal Signal.SIGKILL)], [], Killing, 3, 60000000000) := by
    cases hr : runTimers (mainConfig noEnv) noErr 3
        (interrupt (mainConfig noEnv) noErr Sim.init) with
    | none => exact absurd hr (by decide)
    | some r =>
      refine ⟨r, rfl, ?_⟩
      have hd : (runTimers (mainConfig noEnv) noErr 3
          (interrupt (mainConfig noEnv) noErr Sim.init)).map
            (fun s => (s.actions, s.timers, s.world.currentStep, s.calls, s.now)) =
          some ([(0, Event.write [10, 115, 116, 111, 112, 10]),
            (30000000000, Event.signal Signal.SIGTERM),
            (60000000000, Event.signal Signal.SIGKILL)], [], Killing, 3, 60000000000) := by
        decide
      rw [hr] at hd
      exact Option.some.inj hd
  obtain ⟨r, hr, hfin⟩ := h3
  rw [runTimers_fuel_add _ _ 3 k _ r hr]
  exact congrArg some hfin

/-- C8: the error returned by a stage action changes neither the stage
reached, nor the re-attempt started, nor the action attempted; and whatever
errors the actions return, one interrupt from stage None followed by its
re-attempts makes exactly three calls, attempts the stop command, SIGTERM and
SIGKILL in this order, and ends in stage Killing with no re-attempt left. -/
theorem errors_do_not_stop_escalation (v : Viper) (errs : Nat → Option String)
    (e1 e2 : Option String) (w : World) :
    (shutdown v e1 w).currentStep = (shutdown v e2 w).currentStep ∧
      started (w.since (shutdown v e1 w)) = started (w.since (shutdown v e2 w)) ∧
      (w.since (shutdown v e1 w)).filter Event.isAction =
        (w.since (shutdown v e2 w)).filter Event.isAction ∧
      ∃ r, runTimers v errs 3 (interrupt v errs Sim.init) = some r ∧
        r.world.currentStep = Killing ∧ r.timers = [] ∧ r.calls = 3 ∧
        r.actions.map Prod.snd =
          [Event.write (bytesOf ("\n" ++ v.GetString "shutdown_cmd" ++ "\n")),
           Event.signal Signal.SIGTERM, Event.signal Signal.SIGKILL] := by
  refine ⟨?_, ?_, ?_, ?_⟩
  · rw [shutdown_currentStep, shutdown_currentStep]
  · rw [started_since_shutdown, started_since_shutdown]
  · rw [actions_since_shutdown, actions_since_shutdown]
  · simp [runTimers, interrupt, call_shutdown, call_reattemptShutdown, Sim.init, World.init,
      popEarliest, Killing, shutdown_currentStep, reattemptShutdown_currentStep,
      started_since_shutdown, actions_since_shutdown]

/-! ## Overlapping and non-overlapping callers -/

theorem runSchedule_append (v : Viper) (errs : Nat → Option String) (a b : List Nat)
    (c : Conc) :
    runSchedule v errs (a ++ b) c = runSchedule v errs b (runSchedule v errs a c) := by
  induction a generalizing c with
  | nil => rfl
  | cons t ts ih => exact ih (stepCaller v errs t c)

theorem claims_append (a b : List (Nat × Event)) : claims (a ++ b) = claims a ++ claims b := by
  induction a with
  | nil => rfl
  | cons x xs ih =>
    obtain ⟨t, e⟩ := x
    simp only [List.cons_append, claims]
    cases stageOf e <;> simp [ih]

theorem claims_stageAction (v : Viper) (e : Option String) (t : Nat) (k : Int)
    (hk : k = 1 ∨ k = 2 ∨ k = 3) :
    claims ((stageAction v e { currentStep := k, trace := [] }).trace.map fun x => (t, x)) =
      [(t, k)] := by
  rw [stageAction_eq]
  rcases hk with rfl | rfl | rfl <;> cases e <;>
    simp [claims, stageOf, errLog, GracefullyStopping, Stopping, Killing]

theorem run_caller_blocked (v : Viper) (errs : Nat → Option String) (t : Nat) (c : Conc)
    (hpc : c.pcs t = PC.atGuard) (hk : c.currentStep ≥ 3) :
    (runSchedule v errs [t, t, t, t] c).currentStep = c.currentStep ∧
      (runSchedule v errs [t, t, t, t] c).trace = c.trace ∧
      ∀ u, u ≠ t → (runSchedule v errs [t, t, t, t] c).pcs u = c.pcs u := by
  simp [runSchedule, stepCaller, Conc.setPC, hpc, hk, Killing]
  intro u hu
  simp [hu]

theorem run_caller_advances (v : Viper) (errs : Nat → Option String) (t : Nat) (c : Conc)
    (hpc : c.pcs t = PC.atGuard) (hk : ¬ c.currentStep ≥ 3) :
    (runSchedule v errs [t, t, t, t] c).currentStep = c.currentStep + 1 ∧
      (runSchedule v errs [t, t, t, t] c).trace = c.trace ++
        (stageAction v (errs t) { currentStep := c.currentStep + 1, trace := [] }).trace.map
          (fun x => (t, x)) ∧
      ∀ u, u ≠ t → (runSchedule v errs [t, t, t, t] c).pcs u = c.pcs u := by
  simp [runSchedule, stepCaller, Conc.setPC, hpc, hk, Killing]
  intro u hu
  simp [hu]

theorem seqSchedule_invariant (v : Viper) (errs : Nat → Option String) (n : Nat) :
    (runSchedule v errs (seqSchedule n) Conc.init).currentStep = ((min n 3 : Nat) : Int) ∧
      (∀ t, n ≤ t → (runSchedule v errs (seqSchedule n) Conc.init).pcs t = PC.atGuard) ∧
      claims (runSchedule v errs (seqSchedule n) Conc.init).trace =
        (List.range (min n 3)).map fun (k : Nat) => (k, (k : Int) + 1) := by
  induction n with
  | zero => simp [seqSchedule, runSchedule, Conc.init, claims]
  | succ n ih =>
    obtain ⟨hstep, hpcs, hclaims⟩ := ih
    rw [seqSchedule, runSchedule_append]
    by_cases hn : 3 ≤ n
    · have hk : (runSchedule v errs (seqSchedule n) Conc.init).currentStep ≥ 3 := by
        rw [hstep]; omega
      obtain ⟨h1, h2, h3⟩ := run_caller_blocked v errs n _ (hpcs n (le_refl n)) hk
      refine ⟨?_, ?_, ?_⟩
      · rw [h1, hstep]; omega
      · intro t ht
        rw [h3 t (by omega)]
        exact hpcs t (by omega)
      · rw [h2, hclaims]
        have : min (n + 1) 3 = min n 3 := by omega
        rw [this]
    · have hk : ¬ (runSchedule v errs (seqSchedule n) Conc.init).currentStep ≥ 3 := by
        rw [hstep]; omega
      obtain ⟨h1, h2, h3⟩ := run_caller_advances v errs n _ (hpcs n (le_refl n)) hk
      have hmin : min n 3 = n := by omega
      have hmin1 : min (n + 1) 3 = n + 1 := by omega
      refine ⟨?_, ?_, ?_⟩
      · rw [h1, hstep]; omega
      · intro t ht
        rw [h3 t (by omega)]
        exact hpcs t (by omega)
      · rw [h2, claims_append, hclaims, hstep, hmin, hmin1, List.range_succ, List.map_append,
          claims_stageAction v (errs n) n ((n : Int) + 1) (by omega)]
        rfl

/-- C6, amended: callers of shutdown that do not overlap, each running to
completion before the next starts from stage None, never act on the same
stage: caller number k (from 0) acts for stage k+1 as long as k+1 is at most
Killing, no stage is skipped, and later callers do not act. -/
theorem sequential_callers_claim_distinct_stages (v : Viper) (errs : Nat → Option String)
    (n : Nat) :
    claims (runSchedule v errs (seqSchedule n) Conc.init).trace =
      (List.range (min n 3)).map fun (k : Nat) => (k, (k : Int) + 1) :=
  (seqSchedule_invariant v errs n).2.2

/-- C6 fails as stated: the advance of the stage is not one atomic
read-modify-write.  Two callers that both pass the test and both increment
before either reaches the switch both read stage Stopping there: both send
SIGTERM and nobody writes the stop command. -/
theorem overlapping_callers_share_stage :
    claims (runSchedule (mainConfig noEnv) noErr [0, 1, 0, 0, 1, 1, 0, 1] Conc.init).trace =
        [(0, Stopping), (1, Stopping)] ∧
      (runSchedule (mainConfig noEnv) noErr [0, 1, 0, 0, 1, 1, 0, 1] Conc.init).trace =
        [(0, Event.log "trying to shutdown with SIGTERM"), (0, Event.signal Signal.SIGTERM),
         (0, Event.goReattempt 30),
         (1, Event.log "trying to shutdown with SIGTERM"), (1, Event.signal Signal.SIGTERM),
         (1, Event.goReattempt 30)] ∧
      (runSchedule (mainConfig noEnv) noErr [0, 1, 0, 0, 1, 1, 0, 1] Conc.init).pcs 0 = PC.done ∧
      (runSchedule (mainConfig noEnv) noErr [0, 1, 0, 0, 1, 1, 0, 1] Conc.init).pcs 1 = PC.done ∧
      ¬ ((claims (runSchedule (mainConfig noEnv) noErr [0, 1, 0, 0, 1, 1, 0, 1]
        Conc.init).trace).map Prod.snd).Nodup := by
  decide

/-! ## Notified shutdown -/

/-- C7, amended: for every configuration, one call to
shutdownWithNotification performs, in this order and apart from the report
of a failed write nothing else of its own, one write of newline, the
formatted notify_cmd, newline, one sleep, and one call to shutdown, whether
or not the write failed; when notify_wait lies between 0 and 9223372036 the
sleep lasts notify_wait seconds.  Under the default template with
notify_wait 5 the bytes written are those of "\nnotify_shutdown 5\n". -/
theorem notification_then_one_shutdown (sprintf : String → Int → String) (v : Viper)
    (writeErr ioErr : Option String) (w : World) :
    shutdownWithNotification sprintf v writeErr ioErr w =
        shutdown v ioErr
          { currentStep := w.currentStep
            trace := w.trace ++
              [Event.write (bytesOf ("\n" ++
                sprintf (v.GetString "notify_cmd") (v.GetInt "notify_wait") ++ "\n"))] ++
              errLog writeErr ++
              [Event.sleep (secondsToDuration (v.GetInt64 "notify_wait"))] } ∧
      w.since (shutdownWithNotification sprintf v writeErr ioErr w) =
        [Event.write (bytesOf ("\n" ++
          sprintf (v.GetString "notify_cmd") (v.GetInt "notify_wait") ++ "\n"))] ++
        errLog writeErr ++
        [Event.sleep (secondsToDuration (v.GetInt64 "notify_wait"))] ++
        w.since (shutdown v ioErr w) ∧
      (shutdownWithNotification sprintf v writeErr ioErr w).currentStep =
        (shutdown v ioErr w).currentStep ∧
      (0 ≤ v.GetInt64 "notify_wait" → v.GetInt64 "notify_wait" ≤ 9223372036 →
        secondsToDuration (v.GetInt64 "notify_wait") = v.GetInt64 "notify_wait" * Second ∧
          sleepTime (secondsToDuration (v.GetInt64 "notify_wait")) =
            v.GetInt64 "notify_wait" * Second) ∧
      (sprintfD ((mainConfig (envWith "MCWRAP__NOTIFY_WAIT" "5")).GetString "notify_cmd")
          ((mainConfig (envWith "MCWRAP__NOTIFY_WAIT" "5")).GetInt "notify_wait")).map
          (fun msg => bytesOf ("\n" ++ msg ++ "\n")) =
        some [10, 110, 111, 116, 105, 102, 121, 95, 115, 104, 117, 116, 100, 111, 119, 110,
          32, 53, 10] := by
  have hrun : shutdownWithNotification sprintf v writeErr ioErr w =
      shutdown v ioErr (w.emit
        ([Event.write (bytesOf ("\n" ++
            sprintf (v.GetString "notify_cmd") (v.GetInt "notify_wait") ++ "\n"))] ++
          errLog writeErr ++
          [Event.sleep (secondsToDuration (v.GetInt64 "notify_wait"))])) := by
    unfold shutdownWithNotification
    cases writeErr <;> simp [World.emit, logIfErr, errLog]
  refine ⟨?_, ?_, ?_, ?_, by decide⟩
  · rw [hrun]
    simp [World.emit]
  · rw [hrun, since_shutdown_after]
  · rw [hrun, shutdown_currentStep, shutdown_currentStep]
    rfl
  · exact fun h0 h1 => secondsToDuration_of_range _ h0 h1

theorem notification_then_one_shutdown_witness :
    secondsToDuration ((mainConfig (envWith "MCWRAP__NOTIFY_WAIT" "5")).GetInt64 "notify_wait") =
        (mainConfig (envWith "MCWRAP__NOTIFY_WAIT" "5")).GetInt64 "notify_wait" * Second ∧
      sleepTime (secondsToDuration
          ((mainConfig (envWith "MCWRAP__NOTIFY_WAIT" "5")).GetInt64 "notify_wait")) =
        (mainConfig (envWith "MCWRAP__NOTIFY_WAIT" "5")).GetInt64 "notify_wait" * Second :=
  (notification_then_one_shutdown (fun format a => (sprintfD format a).getD "")
    (mainConfig (envWith "MCWRAP__NOTIFY_WAIT" "5")) (some "write |1: broken pipe") none
    World.init).2.2.2.1 (by decide) (by decide)

/-- C7 fails as stated: with notify_wait configured as 9223372037 the
duration overflows 64 bits; the sleep is called with a negative duration and
returns at once instead of lasting notify_wait seconds. -/
theorem notification_sleep_overflows :
    sprintfD "notify_shutdown %d" 9223372037 = some "notify_shutdown 9223372037" ∧
      (shutdownWithNotification (fun format a => (sprintfD format a).getD "")
        (mainConfig (envWith "MCWRAP__NOTIFY_WAIT" "9223372037")) none none World.init).trace =
        [Event.write (bytesOf "\nnotify_shutdown 9223372037\n"),
         Event.sleep (-9223372036709551616),
         Event.log "trying to shutdown gracefully",
         Event.write [10, 115, 116, 111, 112, 10],
         Event.goReattempt 30] ∧
      Event.sleep (9223372037 * Second) ∉
        (shutdownWithNotification (fun format a => (sprintfD format a).getD "")
          (mainConfig (envWith "MCWRAP__NOTIFY_WAIT" "9223372037")) none none World.init).trace ∧
      sleepTime (-9223372036709551616) = 0 := by
  decide

/-! ## Configuration defaults -/

theorem term_wait_default_constant (environ : String → Option String)
    (h : environ "MCWRAP__TERM_WAIT" = none) :
    (mainConfig environ).GetInt64 "term_wait" = 30 := by
  have hpre : (mainConfig environ).envPre = "MCWRAP_" := rfl
  have hauto : (mainConfig environ).automaticEnvApplied = true := rfl
  have henv : (mainConfig environ).environ = environ := rfl
  have hdefs : (mainConfig environ).defaults =
      [("notify_wait", Value.int 30), ("notify_cmd", Value.str "notify_shutdown %d"),
       ("term_wait", Value.int 30), ("shutdown_wait", Value.int 30),
       ("shutdown_cmd", Value.str "stop")] := by
    rfl
  have hkey : toUpper ("MCWRAP_" ++ "_" ++ toLower "term_wait") = "MCWRAP__TERM_WAIT" := by
    decide
  have hne : ("MCWRAP_" : String) ≠ "" := by decide
  unfold Viper.GetInt64 Viper.Get Viper.mergeWithEnvPrefix Viper.getEnv
  simp only [hauto, hpre, hkey, henv, hdefs, if_pos hne, if_true, h]
  decide

/-- C9 on the code: with shutdown_wait set to 10 through the environment and
term_wait not configured, the wait after stage Stopping is still 30, not the
graceful-stop wait in effect (10): the default of term_wait was read before
the environment was enabled. -/
theorem term_wait_default_ignores_environment :
    (mainConfig (envWith "MCWRAP__SHUTDOWN_WAIT" "10")).environ "MCWRAP__TERM_WAIT" = none ∧
      (mainConfig (envWith "MCWRAP__SHUTDOWN_WAIT" "10")).GetInt64 "shutdown_wait" = 10 ∧
      (mainConfig (envWith "MCWRAP__SHUTDOWN_WAIT" "10")).GetInt64 "term_wait" = 30 ∧
      started (World.since { currentStep := GracefullyStopping, trace := [] }
        (shutdown (mainConfig (envWith "MCWRAP__SHUTDOWN_WAIT" "10")) none
          { currentStep := GracefullyStopping, trace := [] })) = [30] := by
  decide

/-! ## The input relay -/

theorem splitDelim_some (d : UInt8) (l line rest : List UInt8)
    (h : splitDelim d l = some (line, rest)) : l = line ++ rest ∧ line ≠ [] := by
  induction l generalizing line with
  | nil => simp [splitDelim] at h
  | cons b bs ih =>
    rw [splitDelim] at h
    split_ifs at h with hb
    · simp only [Option.some.injEq, Prod.mk.injEq] at h
      obtain ⟨rfl, rfl⟩ := h
      simp
    · cases hs : splitDelim d bs with
      | none => simp [hs] at h
      | some p =>
        obtain ⟨l1, r1⟩ := p
        simp only [hs, Option.some.injEq, Prod.mk.injEq] at h
        obtain ⟨rfl, rfl⟩ := h
        obtain ⟨h1, _⟩ := ih l1 hs
        simp [h1]

theorem splitDelim_none (d : UInt8) (l : List UInt8) (h : splitDelim d l = none) : d ∉ l := by
  induction l with
  | nil => simp
  | cons b bs ih =>
    rw [splitDelim] at h
    split_ifs at h with hb
    cases hs : splitDelim d bs with
    | none =>
      simp only [List.mem_cons, not_or]
      exact ⟨fun hd => hb hd.symm, ih hs⟩
    | some p => simp [hs] at h

theorem written_append (a b : List Event) : written (a ++ b) = written a ++ written b := by
  induction a with
  | nil => rfl
  | cons e es ih => cases e <;> simp [written, ih]

/-- The relay loop ends on every finite input that closes with end of input
(given no write error), and what it has written then is the input without
its unterminated last line: the dropped tail holds no newline. -/
theorem relay_writes_complete_lines (fuel : Nat) (input : List UInt8) (i : Nat)
    (tr : List Event) (h : input.length < fuel) :
    ∃ out tail, relay noErr fuel { pending := input, failure := none } i tr = some out ∧
      written out ++ tail = written tr ++ input ∧ (10 : UInt8) ∉ tail := by
  induction fuel generalizing input i tr with
  | zero => omega
  | succ fuel ih =>
    cases hs : splitDelim 10 input with
    | none =>
      refine ⟨tr, input, ?_, rfl, splitDelim_none 10 input hs⟩
      simp [relay, Reader.ReadBytes, hs]
    | some p =>
      obtain ⟨line, rest⟩ := p
      obtain ⟨hsplit, hne⟩ := splitDelim_some 10 input line rest hs
      have hlen : rest.length < fuel := by
        have : 0 < line.length := List.length_pos.mpr hne
        rw [hsplit, List.length_append] at h
        omega
      obtain ⟨out, tail, hout, hw, htail⟩ := ih rest (i + 1) (tr ++ [Event.write line]) hlen
      refine ⟨out, tail, ?_, ?_, htail⟩
      · simp only [relay, Reader.ReadBytes, hs, noErr]
        exact hout
      · rw [hw, written_append, hsplit]
        simp [written]

/-- C10 on the code: on the input "abc\ndef" followed by end of input, the
relay writes "abc\n" only: the unterminated last line, returned by ReadBytes
together with the end-of-input error, is dropped. -/
theorem relay_drops_unterminated_last_line :
    relay noErr 8 { pending := bytesOf "abc\ndef", failure := none } 0 [] =
        some [Event.write (bytesOf "abc\n")] ∧
      (relay noErr 8 { pending := bytesOf "abc\ndef", failure := none } 0 []).map written =
        some [97, 98, 99, 10] ∧
      bytesOf "abc\ndef" = [97, 98, 99, 10, 100, 101, 102] := by
  decide

end Mcwrap
